import Mathlib

/-!
Verification development for the propagation core of the mobx derivation
module (`src/core/derivation.ts`).

The embedding is split in two models:

* the notification protocol (`notifyDependencyStale` / `notifyDependencyReady`)
  acts on a single derivation's two counters; the external collaborators
  (`reportTransition`, `propagateStaleness`, `propagateReadiness`) and the
  invocation of the derivation body (`onDependenciesReady`) are recorded as an
  emitted event list instead of being executed, and the boolean a body run
  would return is passed in as a parameter;

* the dependency-tracking machinery (`trackDerivedFunction`,
  `bindDependencies`, `findCycle`) acts on a graph state indexed by natural
  node identifiers.  `findCycle` recurses through a possibly cyclic heap, so it
  is given explicit fuel; exhausting the fuel models the non-terminating
  (stack-overflowing) executions of the JavaScript original.

Counters are `Int` (JavaScript numbers under `++`/`--`), and every `invariant`
failure is an `Except.error` carrying the message from the source.
-/

namespace Mobx

/-- A derivation's two protocol counters (`dependencyStaleCount`,
`dependencyChangeCount` in `IDerivation`). -/
structure Derivation where
  dependencyStaleCount : Int
  dependencyChangeCount : Int
deriving DecidableEq

/-- The transition tags passed to `reportTransition` by the source. -/
inductive TransitionKind where
  | staleT
  | pendingT
  | readyT
deriving DecidableEq

/-- Observable side effects of the protocol entry points: transition reports,
outward staleness/readiness propagation, and executions of the derivation
body (`onDependenciesReady`). -/
inductive Event where
  | report (t : TransitionKind) (changed : Option Bool)
  | propagateStaleness
  | propagateReadiness (changed : Bool)
  | runBody
deriving DecidableEq

/-- `notifyDependencyStale` (derivation.ts lines 30-35): pre-increment the
stale counter; if it becomes 1, report "STALE" and propagate staleness. -/
def notifyDependencyStale (d : Derivation) : Derivation × List Event :=
  let d' : Derivation := { d with dependencyStaleCount := d.dependencyStaleCount + 1 }
  if d'.dependencyStaleCount = 1 then
    (d', [Event.report TransitionKind.staleT none, Event.propagateStaleness])
  else
    (d', [])

/-- `notifyDependencyReady` (derivation.ts lines 42-60).  The invariant
`dependencyStaleCount > 0` throws with the source's message; `bodyResult` is
the boolean the body (`onDependenciesReady`) returns when it is invoked. -/
def notifyDependencyReady (d : Derivation) (dependencyDidChange : Bool)
    (bodyResult : Bool) : Except String (Derivation × List Event) :=
  if d.dependencyStaleCount > 0 then
    let d1 : Derivation :=
      if dependencyDidChange then
        { d with dependencyChangeCount := d.dependencyChangeCount + 1 }
      else d
    let d2 : Derivation := { d1 with dependencyStaleCount := d1.dependencyStaleCount - 1 }
    if d2.dependencyStaleCount = 0 then
      if d2.dependencyChangeCount > 0 then
        Except.ok ({ d2 with dependencyChangeCount := 0 },
          [Event.report TransitionKind.pendingT none, Event.runBody,
           Event.propagateReadiness bodyResult])
      else
        Except.ok (d2,
          [Event.report TransitionKind.readyT (some false), Event.propagateReadiness false])
    else
      Except.ok (d2, [])
  else
    Except.error "unexpected ready notification"

/-- The two-source wave of the spec's counting scenario: two stale
notifications followed by two ready notifications with
`dependencyDidChange = true`, starting from zero counters.  Returns the
counter pairs after each call together with the events each call emitted
(`none` would indicate a protocol failure). -/
def waveTrace (b : Bool) : Option (List (Int × Int) × List (List Event)) :=
  let p1 := notifyDependencyStale { dependencyStaleCount := 0, dependencyChangeCount := 0 }
  let p2 := notifyDependencyStale p1.1
  match notifyDependencyReady p2.1 true b with
  | Except.error _ => none
  | Except.ok p3 =>
    match notifyDependencyReady p3.1 true b with
    | Except.error _ => none
    | Except.ok p4 =>
      some ([(p1.1.dependencyStaleCount, p1.1.dependencyChangeCount),
             (p2.1.dependencyStaleCount, p2.1.dependencyChangeCount),
             (p3.1.dependencyStaleCount, p3.1.dependencyChangeCount),
             (p4.1.dependencyStaleCount, p4.1.dependencyChangeCount)],
            [p1.2, p2.2, p3.2, p4.2])

/-! ### Graph model: dependency tracking, binding, cycle detection

Nodes are natural-number identifiers.  `observing n = none` models a plain
observable (no `observing` field); `some l` models a derivation whose
`observing` array is `l`.  `observers n` is the node's observer list. -/

/-- The mutable heap the tracking machinery works on, together with the
`derivationStack` of `globalState`. -/
structure GraphState where
  observing : Nat → Option (List Nat)
  observers : Nat → List Nat
  derivationStack : List Nat

/-- The `for` loop of `findCycle`: try `f` on each observed node in order,
returning `true` as soon as one call does and `none` (non-termination) as
soon as one call fails to return. -/
def findCycleLoop (f : Nat → Option Bool) : List Nat → Option Bool
  | [] => some false
  | c :: rest =>
    match f c with
    | none => none
    | some true => some true
    | some false => findCycleLoop f rest

/-- `findCycle` (derivation.ts lines 97-107), with explicit fuel for the
unbounded recursion through the heap: `none` means the fuel ran out, i.e. the
JavaScript original recurses without returning (stack overflow).  Note the
source tests `obs.indexOf(node)`, not `needle`, before recursing. -/
def findCycle (g : Nat → Option (List Nat)) : Nat → Nat → Nat → Option Bool
  | 0, _, _ => none
  | fuel + 1, needle, node =>
    match g node with
    | none => some false
    | some obs =>
      if node ∈ obs then some true
      else findCycleLoop (fun c => findCycle g fuel needle c) obs

/-- Spec-side reachability used to state the cycle-detection claims:
`reachableIn g k a b` holds when `b` can be reached from `a` by following
between 1 and `k` `observing` edges. -/
def reachableIn (g : Nat → Option (List Nat)) : Nat → Nat → Nat → Bool
  | 0, _, _ => false
  | k + 1, a, b =>
    match g a with
    | none => false
    | some obs => obs.contains b || obs.any fun c => reachableIn g k c b

/-- Bounded-depth condition standing for "the region reachable from `a` is
finite and acyclic": every `observing` path starting at `a` reaches a node
with no `observing` field within `n` steps. -/
def acyclicDepth (g : Nat → Option (List Nat)) : Nat → Nat → Bool
  | 0, a => (g a).isNone
  | n + 1, a =>
    match g a with
    | none => true
    | some obs => obs.all fun c => acyclicDepth g n c

/-- Modelled from the spec: `addObserverEdge(source, derivation)` — edge
mutation on the source side (the implementation lives outside `src/`); the
derivation is appended to the source's observer list. -/
def addObserver (s : GraphState) (observable observer : Nat) : GraphState :=
  { s with observers := fun n =>
      if n = observable then s.observers n ++ [observer] else s.observers n }

/-- Modelled from the spec: `removeObserverEdge(source, derivation)` — the
derivation is removed from the source's observer list (implementation outside
`src/`). -/
def removeObserver (s : GraphState) (observable observer : Nat) : GraphState :=
  { s with observers := fun n =>
      if n = observable then (s.observers n).erase observer else s.observers n }

/-- Modelled from the spec: `quickDiff(new, old)` (utils, outside `src/`)
returns `(new minus old, old minus new)`. -/
def quickDiff (newObs oldObs : List Nat) : List Nat × List Nat :=
  (newObs.filter fun x => decide (x ∉ oldObs),
   oldObs.filter fun x => decide (x ∉ newObs))

/-- Outcome of `bindDependencies`: the cycle invariant threw (carrying the
heap at throw time, since mutations made before a JavaScript throw persist),
the cycle check failed to return, or binding succeeded. -/
inductive BindResult where
  | diverge
  | cycleDetected (s : GraphState)
  | ok (s : GraphState)

/-- The `added` loop of `bindDependencies` (lines 81-86): each new dependency
is cycle-checked (`invariant(!findCycle(derivation, dependency))`) before
`addObserver(dependency, derivation)` is executed. -/
def addDependencies (fuel : Nat) (derivation : Nat) (added : List Nat)
    (s : GraphState) : BindResult :=
  match added with
  | [] => BindResult.ok s
  | dep :: rest =>
    match findCycle s.observing fuel derivation dep with
    | none => BindResult.diverge
    | some true => BindResult.cycleDetected s
    | some false => addDependencies fuel derivation rest (addObserver s dep derivation)

/-- The `removed` loop of `bindDependencies` (lines 89-90). -/
def removeDependencies (derivation : Nat) (removed : List Nat) (s : GraphState) :
    GraphState :=
  match removed with
  | [] => s
  | dep :: rest => removeDependencies derivation rest (removeObserver s dep derivation)

/-- `bindDependencies` (derivation.ts lines 76-91): pop the derivation stack,
diff the new `observing` against the previous one, install the added edges
(cycle-checking each first), then remove the removed edges. -/
def bindDependencies (fuel : Nat) (derivation : Nat) (prevObserving : List Nat)
    (s : GraphState) : BindResult :=
  let s1 : GraphState := { s with derivationStack := s.derivationStack.dropLast }
  let diff := quickDiff ((s1.observing derivation).getD []) prevObserving
  match addDependencies fuel derivation diff.1 s1 with
  | BindResult.diverge => BindResult.diverge
  | BindResult.cycleDetected s2 => BindResult.cycleDetected s2
  | BindResult.ok s2 => BindResult.ok (removeDependencies derivation diff.2 s2)

/-- Writing a derivation's `observing` field. -/
def setObserving (s : GraphState) (n : Nat) (obs : List Nat) : GraphState :=
  { s with observing := fun m => if m = n then some obs else s.observing m }

/-- Outcome of `trackDerivedFunction`: on success it carries the final heap
and the value the tracked body returned. -/
inductive TrackResult (α : Type) where
  | diverge
  | cycleDetected (s : GraphState)
  | ok (s : GraphState) (value : α)

/-- `trackDerivedFunction` (derivation.ts lines 67-74).  The body `f` is
represented by its observable effect: the list `reads` of sources it accesses
(each read appends the source to the cleared `observing` array — the
collaborator contract of the observable side) and the value `result` it
returns. -/
def trackDerivedFunction {α : Type} (fuel : Nat) (s : GraphState) (derivation : Nat)
    (reads : List Nat) (result : α) : TrackResult α :=
  let prevObserving := (s.observing derivation).getD []
  let s1 := setObserving s derivation []
  let s2 : GraphState := { s1 with derivationStack := s1.derivationStack ++ [derivation] }
  let s3 := setObserving s2 derivation reads
  match bindDependencies fuel derivation prevObserving s3 with
  | BindResult.diverge => TrackResult.diverge
  | BindResult.cycleDetected s4 => TrackResult.cycleDetected s4
  | BindResult.ok s4 => TrackResult.ok s4 result

/-- Projection used to name the heap carried inside a `TrackResult` in closed
statements. -/
def stateOfTrack {α : Type} (r : TrackResult α) (dflt : GraphState) : GraphState :=
  match r with
  | TrackResult.diverge => dflt
  | TrackResult.cycleDetected s => s
  | TrackResult.ok s _ => s

/-- Is the outcome a `cycleDetected` throw? -/
def isCycleDetected {α : Type} (r : TrackResult α) : Bool :=
  match r with
  | TrackResult.cycleDetected _ => true
  | _ => false

/-! ### Evaluation context: derivation stack and the mutation guard -/

/-- The fields of `globalState` the guard operations read. -/
structure MobxGlobalState where
  derivationStack : List Nat
  allowStateChanges : Bool
deriving DecidableEq

/-- Modelled from the spec: the `invariant` helper (utils, outside `src/`)
fails with the given condition message when the check is false. -/
def invariant (check : Bool) (message : String) : Except String Unit :=
  if check then Except.ok () else Except.error message

/-- `isComputingDerivation` (derivation.ts lines 19-21). -/
def isComputingDerivation (g : MobxGlobalState) : Bool :=
  decide (g.derivationStack.length > 0)

/-- `checkIfStateModificationsAreAllowed` (derivation.ts lines 23-25): the
source checks only `globalState.allowStateChanges` (message from the source,
first sentence). -/
def checkIfStateModificationsAreAllowed (g : MobxGlobalState) : Except String Unit :=
  invariant g.allowStateChanges
    "It is not allowed to change the state when a computed value is being evaluated"

/-! ### Sequences of protocol calls, for the underflow invariant -/

/-- One call to a notification entry point. -/
inductive NotifyOp where
  | staleOp
  | readyOp (didChange : Bool)

/-- Effect of one protocol call on the counters alone; a failed `invariant`
throw leaves the derivation untouched. -/
def stepNotify (bodyResult : Bool) (d : Derivation) (op : NotifyOp) : Derivation :=
  match op with
  | NotifyOp.staleOp => (notifyDependencyStale d).1
  | NotifyOp.readyOp c =>
    match notifyDependencyReady d c bodyResult with
    | Except.ok p => p.1
    | Except.error _ => d

/-- Run an arbitrary sequence of stale/ready calls against one derivation. -/
def runNotifyOps (bodyResult : Bool) (d : Derivation) (ops : List NotifyOp) : Derivation :=
  ops.foldl (stepNotify bodyResult) d

/-! ### Concrete states used by closed statements -/

/-- A candidate source (node 0) observing a single leaf (node 1). -/
def gC2 : Nat → Option (List Nat) := fun n => if n = 0 then some [1] else none

/-- Heap before a re-run of derivation 0: node 0 currently observes nothing,
node 1 observes node 0. -/
def sEx5 : GraphState :=
  { observing := fun n => if n = 0 then some [] else if n = 1 then some [0] else none,
    observers := fun _ => [],
    derivationStack := [] }

/-- The `observing` relation after derivation 0 re-reads node 1: a 0 → 1 → 0
cycle with no direct self-loop. -/
def gEx5 : Nat → Option (List Nat) := fun n =>
  if n = 0 then some [1] else if n = 1 then some [0] else none

/-- Heap for the successful tracking runs: derivation 0 observes node 1
(which lists it as observer); nodes 1 and 2 are leaves. -/
def sEx8 : GraphState :=
  { observing := fun n => if n = 0 then some [1] else none,
    observers := fun n => if n = 1 then [0] else [],
    derivationStack := [] }

/-! ### Helper lemmas -/

/-- Both branches of `notifyDependencyStale` return the same incremented
derivation. -/
theorem notifyDependencyStale_fst (d : Derivation) :
    (notifyDependencyStale d).1 =
      { d with dependencyStaleCount := d.dependencyStaleCount + 1 } := by
  by_cases h : d.dependencyStaleCount + 1 = 1 <;> simp [notifyDependencyStale, h]

/-- A ready notification against a settled derivation throws the source's
invariant message. -/
theorem ready_underflow_error (d : Derivation) (c b : Bool)
    (h : d.dependencyStaleCount = 0) :
    notifyDependencyReady d c b = Except.error "unexpected ready notification" := by
  unfold notifyDependencyReady
  rw [h]
  rfl

/-- A successful ready notification implies the counter was positive and the
result carries the decremented counter. -/
theorem notifyDependencyReady_ok_stale (d : Derivation) (c b : Bool)
    (p : Derivation × List Event)
    (h : notifyDependencyReady d c b = Except.ok p) :
    0 < d.dependencyStaleCount ∧
    p.1.dependencyStaleCount = d.dependencyStaleCount - 1 := by
  simp only [notifyDependencyReady] at h
  split_ifs at h with hpos hz hch <;>
    · refine ⟨hpos, ?_⟩
      simp only [Except.ok.injEq] at h
      subst h
      cases c <;> simp_all

/-- One protocol call never drives the stale counter negative. -/
theorem stepNotify_nonneg (b : Bool) (d : Derivation) (op : NotifyOp)
    (h : 0 ≤ d.dependencyStaleCount) :
    0 ≤ (stepNotify b d op).dependencyStaleCount := by
  cases op with
  | staleOp =>
    simp only [stepNotify, notifyDependencyStale_fst]
    omega
  | readyOp c =>
    simp only [stepNotify]
    cases hr : notifyDependencyReady d c b with
    | error e => simpa using h
    | ok p =>
      have := notifyDependencyReady_ok_stale d c b p hr
      simp only []
      omega

/-- The stale counter stays non-negative along any sequence of protocol
calls. -/
theorem runNotifyOps_nonneg (b : Bool) (d : Derivation) (ops : List NotifyOp)
    (h : 0 ≤ d.dependencyStaleCount) :
    0 ≤ (runNotifyOps b d ops).dependencyStaleCount := by
  induction ops generalizing d with
  | nil => simpa [runNotifyOps] using h
  | cons op rest ih =>
    rw [runNotifyOps, List.foldl_cons]
    exact ih _ (stepNotify_nonneg b d op h)

/-! ### Claims -/

/-- C1: Exactly-once coalescing.  A derivation starting at zero counters that
receives two stale notifications and then two ready notifications with
`dependencyDidChange = true` shows counters (1,0), (2,0), (1,1), (0,0) after
the four calls: the stale count goes 2 → 1 → 0 across the two ready calls,
the change count reaches 1 before ending reset at 0, the body runs exactly
once — on the ready call that brings the stale count to 0 — and exactly one
PENDING report and one outward readiness propagation are emitted in the whole
wave. -/
theorem c1_exactly_once_coalescing (b : Bool) :
    waveTrace b =
      some ([(1, 0), (2, 0), (1, 1), (0, 0)],
            [[Event.report TransitionKind.staleT none, Event.propagateStaleness],
             [], [],
             [Event.report TransitionKind.pendingT none, Event.runBody,
              Event.propagateReadiness b]]) := by
  cases b <;> rfl

/-- C6: Stale forwarding exactly once.  `notifyDependencyStale` always
increments the stale counter by one and leaves the change counter alone; it
emits the STALE report and the outward staleness propagation exactly on the
0 → 1 transition, and emits nothing when the counter was already positive. -/
theorem c6_stale_forwarding (d : Derivation) :
    (notifyDependencyStale d).1.dependencyStaleCount = d.dependencyStaleCount + 1 ∧
    (notifyDependencyStale d).1.dependencyChangeCount = d.dependencyChangeCount ∧
    (d.dependencyStaleCount = 0 →
      (notifyDependencyStale d).2 =
        [Event.report TransitionKind.staleT none, Event.propagateStaleness]) ∧
    (0 < d.dependencyStaleCount → (notifyDependencyStale d).2 = []) := by
  refine ⟨by rw [notifyDependencyStale_fst], by rw [notifyDependencyStale_fst], ?_, ?_⟩
  · intro h
    simp [notifyDependencyStale, h]
  · intro h
    have hne : ¬ d.dependencyStaleCount + 1 = 1 := by omega
    simp [notifyDependencyStale, hne]

/-- Witness for C6 at concrete inputs: the 0 → 1 call emits the report and
propagation, a call at count 1 emits nothing. -/
theorem c6_stale_forwarding_witness :
    (notifyDependencyStale ⟨0, 0⟩).2 =
      [Event.report TransitionKind.staleT none, Event.propagateStaleness] ∧
    (notifyDependencyStale ⟨1, 0⟩).2 = [] :=
  ⟨(c6_stale_forwarding ⟨0, 0⟩).2.2.1 rfl,
   (c6_stale_forwarding ⟨1, 0⟩).2.2.2 (by decide)⟩

/-- C7: No-op propagation.  A ready call that brings the stale counter to 0
while the change counter (after the conditional increment) is 0 does not run
the body: it reports READY with `changed = false` and propagates readiness
outward with `changed = false` (the emitted event list contains no
`runBody`). -/
theorem c7_noop_propagation (d : Derivation) (c b : Bool)
    (h1 : d.dependencyStaleCount = 1)
    (h2 : (if c then d.dependencyChangeCount + 1 else d.dependencyChangeCount) = 0) :
    notifyDependencyReady d c b =
      Except.ok (⟨0, 0⟩,
        [Event.report TransitionKind.readyT (some false),
         Event.propagateReadiness false]) := by
  cases c <;> simp_all [notifyDependencyReady]

/-- Witness for C7: the concrete no-change wave tail. -/
theorem c7_noop_propagation_witness :
    notifyDependencyReady ⟨1, 0⟩ false true =
      Except.ok (⟨0, 0⟩,
        [Event.report TransitionKind.readyT (some false),
         Event.propagateReadiness false]) :=
  c7_noop_propagation ⟨1, 0⟩ false true rfl rfl

/-- C4: Ready-underflow rejection.  A ready call at stale count 0 fails with
the protocol-violation invariant and leaves the counters unchanged, and under
any sequence of stale/ready calls the stale counter never becomes negative. -/
theorem c4_ready_underflow :
    (∀ (d : Derivation) (c b : Bool), d.dependencyStaleCount = 0 →
        notifyDependencyReady d c b = Except.error "unexpected ready notification") ∧
    (∀ (b : Bool) (d : Derivation) (c : Bool), d.dependencyStaleCount = 0 →
        stepNotify b d (NotifyOp.readyOp c) = d) ∧
    (∀ (b : Bool) (d : Derivation) (ops : List NotifyOp),
        0 ≤ d.dependencyStaleCount →
        0 ≤ (runNotifyOps b d ops).dependencyStaleCount) := by
  refine ⟨fun d c b h => ready_underflow_error d c b h, fun b d c h => ?_,
    fun b d ops h => runNotifyOps_nonneg b d ops h⟩
  simp [stepNotify, ready_underflow_error d c b h]

/-- Witness for C4: underflow at concrete counters, and a concrete two-call
sequence keeping the counter non-negative. -/
theorem c4_ready_underflow_witness :
    notifyDependencyReady ⟨0, 5⟩ true false =
      Except.error "unexpected ready notification" ∧
    stepNotify true ⟨0, 5⟩ (NotifyOp.readyOp true) = ⟨0, 5⟩ ∧
    0 ≤ (runNotifyOps true ⟨0, 0⟩
          [NotifyOp.staleOp, NotifyOp.readyOp true]).dependencyStaleCount :=
  ⟨c4_ready_underflow.1 ⟨0, 5⟩ true false rfl,
   c4_ready_underflow.2.1 true ⟨0, 5⟩ true rfl,
   c4_ready_underflow.2.2 true ⟨0, 0⟩ [NotifyOp.staleOp, NotifyOp.readyOp true]
     (by decide)⟩

/-- C3 counterexample: with an empty derivation stack and
`allowStateChanges = false`, the guard fails anyway — refuting the claim that
a write attempted while the stack is empty never fails.  The source guard
(derivation.ts line 24) consults only `globalState.allowStateChanges`. -/
theorem c3_guard_fails_on_empty_stack :
    checkIfStateModificationsAreAllowed ⟨[], false⟩ =
      Except.error
        "It is not allowed to change the state when a computed value is being evaluated" ∧
    isComputingDerivation ⟨[], false⟩ = false :=
  ⟨rfl, rfl⟩

/-- C3 (amended): the mutation guard fails exactly when `allowStateChanges`
is false, independently of the derivation stack; `isComputingDerivation`
reports stack non-emptiness but is not consulted by the guard. -/
theorem c3_guard_condition (g : MobxGlobalState) :
    ((checkIfStateModificationsAreAllowed g = Except.ok ()) ↔
      g.allowStateChanges = true) ∧
    (∀ l : List Nat,
      checkIfStateModificationsAreAllowed
          { derivationStack := l, allowStateChanges := g.allowStateChanges } =
        checkIfStateModificationsAreAllowed g) := by
  constructor
  · cases h : g.allowStateChanges <;>
      simp [checkIfStateModificationsAreAllowed, invariant, h]
  · intro l
    rfl

/-- C2: the cycle detector at a concrete input on which the claimed
specification fails.  Needle 1 is reachable from candidate source 0 (which
does have an `observing` list), yet `findCycle` returns `false`: the source
tests `obs.indexOf(node)` instead of `obs.indexOf(needle)`, so the `needle`
argument is never consulted and only nodes directly observing themselves are
ever found. -/
theorem c2_findCycle_misses_reachable_needle :
    findCycle gC2 5 1 0 = some false ∧
    reachableIn gC2 1 0 1 = true ∧
    (gC2 0).isSome = true :=
  ⟨rfl, rfl, rfl⟩

/-- C5: binding at a concrete input on which the claim fails.  Derivation 0
re-runs reading node 1 while node 1 observes node 0, so the new `observing`
set lets derivation 0 reach itself; the claim demands a `CycleDetected`
failure, but the cycle check recurses forever between the two nodes (fuel
exhaustion models the JavaScript stack overflow), so binding never raises
`CycleDetected`. -/
theorem c5_indirect_self_reach_diverges :
    trackDerivedFunction 20 sEx5 0 [1] (7 : Nat) = TrackResult.diverge ∧
    reachableIn gEx5 2 0 0 = true :=
  ⟨rfl, rfl⟩

/-- If every `observing` path from `a` bottoms out within `n` steps, the
cycle detector returns a result at fuel `n + 1`. -/
theorem findCycle_isSome_of_acyclicDepth (n : Nat) (g : Nat → Option (List Nat))
    (needle : Nat) :
    ∀ a : Nat, acyclicDepth g n a = true →
      (findCycle g (n + 1) needle a).isSome = true := by
  induction n with
  | zero =>
    intro a h
    rw [findCycle]
    cases hg : g a with
    | none => rfl
    | some obs => simp [acyclicDepth, hg] at h
  | succ n ih =>
    intro a h
    rw [findCycle]
    cases hg : g a with
    | none => rfl
    | some obs =>
      simp only []
      by_cases hmem : a ∈ obs
      · simp [hmem]
      · simp only [if_neg hmem]
        have hall : ∀ c ∈ obs, acyclicDepth g n c = true := by
          simpa [acyclicDepth, hg, List.all_eq_true] using h
        clear h hg hmem
        induction obs with
        | nil => rfl
        | cons c rest ihl =>
          rw [findCycleLoop]
          have hc := ih c (hall c (List.mem_cons_self c rest))
          cases hfc : findCycle g (n + 1) needle c with
          | none => rw [hfc] at hc; simp at hc
          | some v =>
            cases v with
            | true => rfl
            | false => exact ihl fun x hx => hall x (List.mem_cons_of_mem c hx)

/-- C10: termination of the cycle detector on finite acyclic regions.  When
every `observing` path from the candidate source `a` reaches a leaf within
`n` edges (the shallow rendering of "the reachable graph is finite and
acyclic"), `findCycle` returns a result at fuel `n + 1` — the depth-first
recursion is well-founded and bounded by the region's depth. -/
theorem c10_findCycle_terminates_on_acyclic (g : Nat → Option (List Nat))
    (n needle a : Nat) (h : acyclicDepth g n a = true) :
    (findCycle g (n + 1) needle a).isSome = true :=
  findCycle_isSome_of_acyclicDepth n g needle a h

/-- Witness for C10 on a concrete two-node acyclic graph. -/
theorem c10_findCycle_terminates_on_acyclic_witness :
    (findCycle gC2 2 5 0).isSome = true :=
  c10_findCycle_terminates_on_acyclic gC2 1 5 0 rfl

/-- Membership in the `added` component of the diff. -/
theorem mem_quickDiff_added {newObs oldObs : List Nat} {x : Nat} :
    x ∈ (quickDiff newObs oldObs).1 ↔ x ∈ newObs ∧ x ∉ oldObs := by
  simp [quickDiff]

/-- Membership in the `removed` component of the diff. -/
theorem mem_quickDiff_removed {newObs oldObs : List Nat} {x : Nat} :
    x ∈ (quickDiff newObs oldObs).2 ↔ x ∈ oldObs ∧ x ∉ newObs := by
  simp [quickDiff]

/-- The added-edge loop never touches `observing` or the stack. -/
theorem addDependencies_ok_fields {fuel d : Nat} :
    ∀ (added : List Nat) (s s2 : GraphState),
      addDependencies fuel d added s = BindResult.ok s2 →
      s2.observing = s.observing ∧ s2.derivationStack = s.derivationStack := by
  intro added
  induction added with
  | nil =>
    intro s s2 h
    simp only [addDependencies] at h
    cases h
    exact ⟨rfl, rfl⟩
  | cons dep rest ih =>
    intro s s2 h
    simp only [addDependencies] at h
    cases hfc : findCycle s.observing fuel d dep with
    | none => rw [hfc] at h; cases h
    | some v =>
      cases v with
      | true => rw [hfc] at h; cases h
      | false =>
        rw [hfc] at h
        exact ⟨(ih _ _ h).1, (ih _ _ h).2⟩

/-- On a successful added-edge loop, every added dependency passed its cycle
check. -/
theorem addDependencies_ok_checks {fuel d : Nat} :
    ∀ (added : List Nat) (s s2 : GraphState),
      addDependencies fuel d added s = BindResult.ok s2 →
      ∀ x ∈ added, findCycle s.observing fuel d x = some false := by
  intro added
  induction added with
  | nil =>
    intro s s2 _ x hx
    cases hx
  | cons dep rest ih =>
    intro s s2 h x hx
    simp only [addDependencies] at h
    cases hfc : findCycle s.observing fuel d dep with
    | none => rw [hfc] at h; cases h
    | some v =>
      cases v with
      | true => rw [hfc] at h; cases h
      | false =>
        rw [hfc] at h
        rcases List.mem_cons.mp hx with rfl | hx'
        · exact hfc
        · exact ih _ _ h x hx'

/-- On a successful added-edge loop, the derivation is appended to the
observer list of exactly the added dependencies. -/
theorem addDependencies_ok_observers {fuel d : Nat} :
    ∀ (added : List Nat) (s s2 : GraphState),
      addDependencies fuel d added s = BindResult.ok s2 → added.Nodup →
      ∀ x, s2.observers x =
        if x ∈ added then s.observers x ++ [d] else s.observers x := by
  intro added
  induction added with
  | nil =>
    intro s s2 h _ x
    simp only [addDependencies] at h
    cases h
    simp
  | cons dep rest ih =>
    intro s s2 h hnd x
    simp only [addDependencies] at h
    cases hfc : findCycle s.observing fuel d dep with
    | none => rw [hfc] at h; cases h
    | some v =>
      cases v with
      | true => rw [hfc] at h; cases h
      | false =>
        rw [hfc] at h
        have hdup := List.nodup_cons.mp hnd
        have hx := ih _ _ h hdup.2 x
        by_cases hxd : x = dep
        · subst hxd
          rw [hx, if_neg hdup.1]
          simp [addObserver]
        · rw [hx]
          by_cases hxr : x ∈ rest <;>
            simp [addObserver, hxd, hxr, List.mem_cons]

/-- The removed-edge loop never touches `observing` or the stack. -/
theorem removeDependencies_fields {d : Nat} :
    ∀ (removed : List Nat) (s : GraphState),
      (removeDependencies d removed s).observing = s.observing ∧
      (removeDependencies d removed s).derivationStack = s.derivationStack := by
  intro removed
  induction removed with
  | nil => intro s; exact ⟨rfl, rfl⟩
  | cons dep rest ih =>
    intro s
    simp only [removeDependencies]
    exact ⟨(ih _).1, (ih _).2⟩

/-- The removed-edge loop erases the derivation from the observer list of
exactly the removed dependencies. -/
theorem removeDependencies_observers {d : Nat} :
    ∀ (removed : List Nat) (s : GraphState), removed.Nodup →
      ∀ x, (removeDependencies d removed s).observers x =
        if x ∈ removed then (s.observers x).erase d else s.observers x := by
  intro removed
  induction removed with
  | nil =>
    intro s _ x
    simp [removeDependencies]
  | cons dep rest ih =>
    intro s hnd x
    simp only [removeDependencies]
    have hdup := List.nodup_cons.mp hnd
    have hx := ih (removeObserver s dep d) hdup.2 x
    by_cases hxd : x = dep
    · subst hxd
      rw [hx, if_neg hdup.1]
      simp [removeObserver]
    · rw [hx]
      by_cases hxr : x ∈ rest <;>
        simp [removeObserver, hxd, hxr, List.mem_cons]

/-- Characterization of a successful `bindDependencies` run starting from a
state whose derivation observes `newObs`: the stack is popped, `observing` is
untouched, every added edge passed its cycle check, and the observer lists
change exactly on the diff. -/
theorem bindDependencies_ok_char (fuel d : Nat) (prev newObs : List Nat)
    (s s2 : GraphState) (hobs : s.observing d = some newObs)
    (hnew : newObs.Nodup) (hprev : prev.Nodup)
    (h : bindDependencies fuel d prev s = BindResult.ok s2) :
    s2.derivationStack = s.derivationStack.dropLast ∧
    s2.observing = s.observing ∧
    (∀ x ∈ (quickDiff newObs prev).1, findCycle s.observing fuel d x = some false) ∧
    (∀ x, s2.observers x =
      if x ∈ (quickDiff newObs prev).1 then s.observers x ++ [d]
      else if x ∈ (quickDiff newObs prev).2 then (s.observers x).erase d
      else s.observers x) := by
  simp only [bindDependencies] at h
  rw [hobs] at h
  simp only [Option.getD_some] at h
  split at h
  · cases h
  · cases h
  · rename_i s3 heq
    cases h
    have hfields := addDependencies_ok_fields _ _ _ heq
    have hchecks := addDependencies_ok_checks _ _ _ heq
    have hadded : (quickDiff newObs prev).1.Nodup := hnew.filter _
    have hremoved : (quickDiff newObs prev).2.Nodup := hprev.filter _
    have hobsadd := addDependencies_ok_observers _ _ _ heq hadded
    have hremfields := @removeDependencies_fields d (quickDiff newObs prev).2 s3
    have hremobs := @removeDependencies_observers d (quickDiff newObs prev).2 s3 hremoved
    refine ⟨?_, ?_, ?_, ?_⟩
    · rw [hremfields.2, hfields.2]
    · rw [hremfields.1, hfields.1]
    · exact hchecks
    · intro x
      rw [hremobs x]
      by_cases hA : x ∈ (quickDiff newObs prev).1
      · have hxr : x ∉ (quickDiff newObs prev).2 := by
          rcases mem_quickDiff_added.mp hA with ⟨h1, h2⟩
          intro hc
          exact (mem_quickDiff_removed.mp hc).2 h1
        rw [if_neg hxr, hobsadd x, if_pos hA, if_pos hA]
      · by_cases hR : x ∈ (quickDiff newObs prev).2
        · rw [if_pos hR, hobsadd x, if_neg hA, if_neg hA, if_pos hR]
        · rw [if_neg hR, hobsadd x, if_neg hA, if_neg hA, if_neg hR]

/-- C9: Implicit result passthrough.  `trackDerivedFunction` returns exactly
the value produced by the tracked body: whenever tracking succeeds, the value
carried by the outcome is the body's result, untouched by the rebinding
work. -/
theorem c9_track_returns_body_result {α : Type} (fuel : Nat) (s : GraphState)
    (d : Nat) (reads : List Nat) (result : α) (s' : GraphState) (v : α)
    (h : trackDerivedFunction fuel s d reads result = TrackResult.ok s' v) :
    v = result := by
  simp only [trackDerivedFunction] at h
  split at h <;> simp_all

/-- Witness for C9 on a concrete successful tracking run. -/
theorem c9_track_returns_body_result_witness : (42 : Nat) = 42 :=
  c9_track_returns_body_result 1 sEx8 0 [2] 42
    (stateOfTrack (trackDerivedFunction 1 sEx8 0 [2] (42 : Nat)) sEx8) 42 rfl

/-- C8: Track-and-bind protocol.  A successful
`trackDerivedFunction(derivation, f)` run (body reading `reads`, previous
`observing` set `prev`) pushes and pops the derivation stack exactly once
(net stack unchanged), installs `reads` as the new `observing` set, and
rebinds the observer edges by the diff: every edge in `reads` minus `prev`
is appended (having passed its cycle check against the freshly captured
graph first), every edge in `prev` minus `reads` is erased, and edges in
both sets — or in neither — are never touched.  Removals happen after all
additions: the loops are sequenced, which the final observer lists witness
through the erase-after-append shape on the diff. -/
theorem c8_track_bind_protocol {α : Type} (fuel : Nat) (s : GraphState) (d : Nat)
    (reads prev : List Nat) (res : α) (s' : GraphState) (v : α)
    (hprev : s.observing d = some prev)
    (hreads : reads.Nodup) (hprevnd : prev.Nodup)
    (h : trackDerivedFunction fuel s d reads res = TrackResult.ok s' v) :
    s'.derivationStack = s.derivationStack ∧
    s'.observing d = some reads ∧
    (∀ x, x ∈ reads → x ∉ prev →
      s'.observers x = s.observers x ++ [d] ∧
      findCycle (fun m => if m = d then some reads else s.observing m) fuel d x =
        some false) ∧
    (∀ x, x ∈ prev → x ∉ reads → s'.observers x = (s.observers x).erase d) ∧
    (∀ x, (x ∈ reads ∧ x ∈ prev) ∨ (x ∉ reads ∧ x ∉ prev) →
      s'.observers x = s.observers x) := by
  simp only [trackDerivedFunction] at h
  rw [hprev] at h
  simp only [Option.getD_some] at h
  split at h
  · cases h
  · cases h
  · rename_i s4 heq
    cases h
    have hg :
        (setObserving
            { setObserving s d [] with
              derivationStack := (setObserving s d []).derivationStack ++ [d] }
            d reads).observing =
          fun m => if m = d then some reads else s.observing m := by
      funext m
      by_cases hmd : m = d <;> simp [setObserving, hmd]
    have hb := bindDependencies_ok_char fuel d prev reads _ _
      (by simp [setObserving]) hreads hprevnd heq
    obtain ⟨hstack, hobs, hchecks, hobsx⟩ := hb
    refine ⟨?_, ?_, ?_, ?_, ?_⟩
    · rw [hstack]
      simp [setObserving]
    · rw [hobs]
      simp [setObserving]
    · intro x hx1 hx2
      have hxadd : x ∈ (quickDiff reads prev).1 := mem_quickDiff_added.mpr ⟨hx1, hx2⟩
      constructor
      · rw [hobsx x, if_pos hxadd]
        simp [setObserving]
      · have := hchecks x hxadd
        rwa [hg] at this
    · intro x hx1 hx2
      have hxrem : x ∈ (quickDiff reads prev).2 := mem_quickDiff_removed.mpr ⟨hx1, hx2⟩
      have hxadd : x ∉ (quickDiff reads prev).1 := fun hc =>
        hx2 (mem_quickDiff_added.mp hc).1
      rw [hobsx x, if_neg hxadd, if_pos hxrem]
      simp [setObserving]
    · intro x hx
      have hxadd : x ∉ (quickDiff reads prev).1 := by
        intro hc
        rcases mem_quickDiff_added.mp hc with ⟨h1, h2⟩
        rcases hx with ⟨_, hp⟩ | ⟨hr, _⟩
        · exact h2 hp
        · exact hr h1
      have hxrem : x ∉ (quickDiff reads prev).2 := by
        intro hc
        rcases mem_quickDiff_removed.mp hc with ⟨h1, h2⟩
        rcases hx with ⟨hr, _⟩ | ⟨_, hp⟩
        · exact h2 hr
        · exact hp h1
      rw [hobsx x, if_neg hxadd, if_neg hxrem]
      simp [setObserving]

/-- Witness for C8: the net stack is unchanged on a concrete successful run
(derivation 0 drops its edge to node 1 and gains one to node 2). -/
theorem c8_track_bind_protocol_witness :
    (stateOfTrack (trackDerivedFunction 1 sEx8 0 [2] (7 : Nat)) sEx8).derivationStack =
      sEx8.derivationStack :=
  (c8_track_bind_protocol 1 sEx8 0 [2] [1] 7
      (stateOfTrack (trackDerivedFunction 1 sEx8 0 [2] (7 : Nat)) sEx8) 7
      rfl (by decide) (by decide) rfl).1

end Mobx
